import Mathlib

/-!
# Verification of the hd_wallet_system core

Shallow embedding of the custodial multi-chain wallet backend:
the chain-adapter factory (`src/chains/index.ts`), the key-custody
encryption service (`src/utils/encryption.ts`), the wallet directory
(`WalletService`), the transfer engine (`TransferService`) and the sweep
engine (`FlushService`).  Database tables are embedded as lists of row
structures, network/RPC effects as explicit oracle functions in an
environment record, and JavaScript numbers as rationals.
-/

namespace HDWallet

/-! ## Chain types (src/types/index.ts, `ChainType` enum) -/

inductive ChainType
  | EVM
  | BITCOIN
  | SOLANA
  | TON
deriving DecidableEq, Repr

/-- The string value of the `ChainType` enum member (used as map keys). -/
def ChainType.key : ChainType → String
  | .EVM => "EVM"
  | .BITCOIN => "BITCOIN"
  | .SOLANA => "SOLANA"
  | .TON => "TON"

/-! ## Key custody (src/utils/encryption.ts, `EncryptionService`)

`EncryptionService` delegates to `node:crypto` AES-256-GCM
(`createCipheriv` / `createDecipheriv` with `setAuthTag`; `final` throws on
an authentication-tag mismatch).  The AES-GCM primitive itself is not part
of this repository, so the AEAD core below is modelled from the spec
(§4.3 KeyCustody): an authenticated symmetric cipher in which the tag
authenticates the ciphertext, decryption checks the tag first and fails
closed on mismatch, and the keystream depends on key, iv and position.
Plaintexts and ciphertexts are byte lists. -/

abbrev Byte := Fin 256

/-- Keystream byte at position `pos` for the given key and iv. -/
def padByte (key iv pos : Nat) : Byte :=
  ⟨(key + iv + pos) % 256, Nat.mod_lt _ (by norm_num)⟩

/-- Encrypt a byte list, starting at stream position `pos`
(`cipher.update`/`cipher.final`). -/
def encFrom (key iv : Nat) : Nat → List Byte → List Byte
  | _, [] => []
  | pos, b :: bs => (b + padByte key iv pos) :: encFrom key iv (pos + 1) bs

/-- Decrypt a byte list, starting at stream position `pos`
(`decipher.update`/`decipher.final`). -/
def decFrom (key iv : Nat) : Nat → List Byte → List Byte
  | _, [] => []
  | pos, b :: bs => (b - padByte key iv pos) :: decFrom key iv (pos + 1) bs

/-- Injective encoding of a byte list into `Nat` (the MAC core). -/
def encList : List Byte → Nat
  | [] => 0
  | b :: bs => Nat.pair b.val (encList bs) + 1

/-- The authentication tag GCM computes over the ciphertext, keyed by
key and iv.  Modelled from the spec as a perfectly collision-free MAC. -/
def macTag (key iv : Nat) (ciphertext : List Byte) : Nat :=
  Nat.pair key (Nat.pair iv (encList ciphertext))

/-- The `{encrypted, iv, tag}` record returned by
`EncryptionService.encrypt`. -/
structure Encrypted where
  encrypted : List Byte
  iv : Nat
  tag : Nat
deriving DecidableEq, Repr

namespace EncryptionService

/-- `EncryptionService.encrypt(text)`: encrypt under the process-wide key
with the supplied fresh iv (`crypto.randomBytes(16)` is modelled as the
`iv` argument), returning ciphertext, iv and auth tag. -/
def encrypt (key iv : Nat) (text : List Byte) : Encrypted :=
  let ciphertext := encFrom key iv 0 text
  { encrypted := ciphertext, iv := iv, tag := macTag key iv ciphertext }

/-- `EncryptionService.decrypt(encrypted, iv, tag)`: verify the auth tag,
then invert the keystream; a tag mismatch fails closed
(`decipher.final` throws). -/
def decrypt (key : Nat) (encrypted : List Byte) (iv tag : Nat) :
    Except String (List Byte) :=
  if tag = macTag key iv encrypted then
    .ok (decFrom key iv 0 encrypted)
  else
    .error "IntegrityError: authentication tag mismatch"

end EncryptionService


/-! ## Shared request/record types (src/types/index.ts) -/

/-- `LOWER(x)` from the SQL layer (`String.toLower`, made kernel-reducible). -/
def lowerStr (s : String) : String := String.mk (s.data.map Char.toLower)

/-- A row of the `addresses` table as selected by `FlushService`
(`SELECT network, chain FROM addresses`). -/
structure AddressRow where
  address : String
  chain : ChainType
  network : String
deriving DecidableEq, Repr

/-- `TransferRequest` (src/types/index.ts); the decimal `amount` string is
modelled by its rational value. -/
structure TransferRequest where
  fromAddress : String
  toAddress : String
  amount : ℚ
  chain : ChainType
  token : Option String
deriving DecidableEq, Repr

/-- `FlushRequest` (src/types/index.ts). -/
structure FlushRequest where
  userAddresses : List String
  hotWalletAddress : String
  chain : ChainType
  token : Option String
deriving DecidableEq, Repr

/-! ## Sweep engine (src/services/FlushService.ts, `FlushService`) -/

/-- External collaborators of `FlushService`: the `addresses` table, the
per-(chain, network) adapter's balance and gas-price RPCs, and
`TransferService.transfer`.  Each RPC result is `Except`-valued: `.error`
models a thrown/rejected promise. -/
structure FlushEnv where
  addressRows : List AddressRow
  getBalance : ChainType → String → String → Option String → Except String ℚ
  getGasPrice : ChainType → String → Except String ℚ
  transfer : TransferRequest → Except String String

/-- Observable effects of one `processSingleAddressFlush` call, in order. -/
inductive FlushEvent
  | balanceQuery (address : String) (token : Option String)
  | gasPriceQuery
  | transferAttempt (request : TransferRequest)
deriving DecidableEq, Repr

/-- `SELECT network, chain FROM addresses WHERE LOWER(address) = LOWER($1)`,
first row. -/
def findAddressRow (rows : List AddressRow) (userAddress : String) :
    Option AddressRow :=
  rows.find? fun r => lowerStr r.address == lowerStr userAddress

/-- `FlushService.getDynamicGasFee`: fee = gas price × gas units / 1e18,
falling back to `0.001` if the gas-price RPC fails (the catch block). -/
def getDynamicGasFee (env : FlushEnv) (chain : ChainType) (network : String)
    (isToken : Option String) : ℚ :=
  match env.getGasPrice chain network with
  | .ok feeData =>
      let gasUnits : ℚ := if isToken.isSome then 65000 else 21000
      feeData * gasUnits / 1000000000000000000
  | .error _ => 1 / 1000

/-- `FlushService.processSingleAddressFlush`, with its effect trace.  The
surrounding `try/catch` makes every failure (missing row, balance error,
transfer error) produce `none` instead of propagating. -/
def processSingleAddressFlush (env : FlushEnv) (userAddress : String)
    (request : FlushRequest) : Option String × List FlushEvent :=
  match findAddressRow env.addressRows userAddress with
  | none => (none, [])
  | some row =>
      match env.getBalance row.chain row.network userAddress request.token with
      | .error _ => (none, [.balanceQuery userAddress request.token])
      | .ok balance =>
          let gasFee := getDynamicGasFee env row.chain row.network request.token
          let minThreshold := gasFee * 2
          if balance ≤ minThreshold then
            (none, [.balanceQuery userAddress request.token, .gasPriceQuery])
          else
            let amountToFlush := if request.token.isNone then balance - gasFee else balance
            let treq : TransferRequest :=
              { fromAddress := userAddress, toAddress := request.hotWalletAddress,
                amount := amountToFlush, chain := row.chain, token := request.token }
            match env.transfer treq with
            | .ok txHash =>
                (some txHash,
                 [.balanceQuery userAddress request.token, .gasPriceQuery, .transferAttempt treq])
            | .error _ =>
                (none,
                 [.balanceQuery userAddress request.token, .gasPriceQuery, .transferAttempt treq])

/-- `FlushService.CONCURRENCY_LIMIT`. -/
def CONCURRENCY_LIMIT : Nat := 5

/-- The chunking performed by the `for` loop in `flushToHotWallet`
(`slice(i, i + CONCURRENCY_LIMIT)` for `i = 0, n, 2n, …`).  The `n = 0`
branch is unreachable (the limit is the constant 5) and is only there for
totality. -/
def chunksOf (n : Nat) (l : List α) : List (List α) :=
  match l with
  | [] => []
  | a :: as =>
      if h0 : n = 0 then [a :: as]
      else (a :: as).take n :: chunksOf n ((a :: as).drop n)
termination_by l.length
decreasing_by
  simp only [List.length_drop, List.length_cons]
  omega

/-- `FlushService.flushToHotWallet`: process chunk by chunk, keep the
non-null hashes of each chunk in order. -/
def flushToHotWallet (env : FlushEnv) (request : FlushRequest) :
    List String × List FlushEvent :=
  let chunkResults := (chunksOf CONCURRENCY_LIMIT request.userAddresses).map
    fun chunk => chunk.map fun a => processSingleAddressFlush env a request
  ((chunkResults.map fun rs => rs.filterMap Prod.fst).flatten,
   (chunkResults.map fun rs => (rs.map Prod.snd).flatten).flatten)


/-- The chunk lengths depend only on the input length. -/
def chunkLens (n : Nat) (m : Nat) : List Nat :=
  if m = 0 then []
  else if n = 0 then [m]
  else min n m :: chunkLens n (m - n)
termination_by m
decreasing_by omega



/-! ### Concrete flush scenarios used by the claim theorems below -/

/-- A flush environment whose gas-price RPC fails while everything else
succeeds (balance 1, transfer returns `"tx1"`). -/
def feeFailEnv : FlushEnv where
  addressRows := [{ address := "0xa1", chain := .EVM, network := "ethereum" }]
  getBalance := fun _ _ _ _ => .ok 1
  getGasPrice := fun _ _ => .error "rpc down"
  transfer := fun _ => .ok "tx1"

/-- The flush request for `feeFailEnv`. -/
def feeFailRequest : FlushRequest where
  userAddresses := ["0xa1"]
  hotWalletAddress := "0xhot"
  chain := .EVM
  token := none

/-! ## Transfer engine (`TransferService`, bundled with src/utils/logger.ts)

`TransferService.transfer` joins `addresses` with `wallets`, decrypts the
stored mnemonic, calls the adapter's `transfer`, and inserts a `pending`
transaction record.  The factory lookup and the chain-native broadcast are
folded into the `adapterTransfer` oracle (any adapter-layer throw is its
`.error` case). -/

/-- Transaction status values (`'pending' | 'confirmed' | 'failed'`). -/
inductive TxStatus
  | pending
  | confirmed
  | failed
deriving DecidableEq, Repr

/-- A row of the `transactions` table; `NOW()` timestamps are abstract
naturals. -/
structure TxRow where
  fromAddress : String
  toAddress : String
  chain : ChainType
  token : Option String
  amount : ℚ
  txHash : String
  status : TxStatus
  confirmedAt : Option Nat
deriving DecidableEq, Repr

/-- A row of `addresses JOIN wallets` as selected by
`TransferService.transfer`. -/
structure WalletJoinRow where
  address : String
  chain : ChainType
  network : String
  addressIndex : Nat
  encryptedMnemonic : List Byte
  encryptionIv : Nat
  encryptionTag : Nat
deriving DecidableEq, Repr

/-- The parameter record passed to `adapter.transfer`. -/
structure AdapterTransferParams where
  fromMnemonic : List Byte
  fromIndex : Nat
  toAddress : String
  amount : ℚ
  token : Option String
deriving DecidableEq, Repr

/-- External collaborators of `TransferService.transfer`.  The
`adapterBalance` oracle is the world's current balance state: it is
available to the service but — as proved below — never consulted. -/
structure TransferEnv where
  masterKey : Nat
  addressJoinRows : List WalletJoinRow
  transactions : List TxRow
  adapterTransfer : ChainType → String → AdapterTransferParams → Except String String
  adapterBalance : ChainType → String → String → Option String → Except String ℚ

/-- The `pending` transaction record inserted after a successful
broadcast. -/
def pendingRecord (request : TransferRequest) (txHash : String) : TxRow where
  fromAddress := request.fromAddress
  toAddress := request.toAddress
  chain := request.chain
  token := request.token
  amount := request.amount
  txHash := txHash
  status := .pending
  confirmedAt := none

namespace TransferService

/-- `TransferService.transfer`: resolve the address (and its wallet's
encrypted mnemonic), decrypt, broadcast through the adapter, insert a
`pending` record, return the transaction hash together with the updated
`transactions` table. -/
def transfer (env : TransferEnv) (request : TransferRequest) :
    Except String (String × List TxRow) :=
  match env.addressJoinRows.find?
      (fun r => r.address == request.fromAddress && r.chain == request.chain) with
  | none => .error "Address not found"
  | some addressInfo =>
      match EncryptionService.decrypt env.masterKey addressInfo.encryptedMnemonic
          addressInfo.encryptionIv addressInfo.encryptionTag with
      | .error e => .error e
      | .ok mnemonic =>
          match env.adapterTransfer request.chain addressInfo.network
              { fromMnemonic := mnemonic, fromIndex := addressInfo.addressIndex,
                toAddress := request.toAddress, amount := request.amount,
                token := request.token } with
          | .error e => .error e
          | .ok txHash =>
              .ok (txHash, env.transactions ++ [pendingRecord request txHash])

/-- External collaborators of `TransferService.getTransactionStatus`:
the `transactions` table, the adapter's status poll (keyed by the chain
stored in the record), and the database clock (`NOW()`). -/
structure StatusEnv where
  transactions : List TxRow
  adapterStatus : ChainType → String → TxStatus
  now : Nat

/-- The row update of the `UPDATE transactions SET status = $1,
confirmed_at = CASE WHEN $1 = 'confirmed' THEN NOW() ELSE NULL END` query. -/
def statusUpdate (status : TxStatus) (now : Nat) (r : TxRow) : TxRow :=
  { r with status := status,
           confirmedAt := if status = .confirmed then some now else none }

/-- `TransferService.getTransactionStatus`: look up the record by hash,
poll the adapter for the current status and, whenever it differs from the
stored one, overwrite the stored status (setting `confirmed_at` when the
new status is `confirmed` and `NULL` otherwise).  Returns the merged view
together with the updated table.  The `chain` argument is only logged by
the source. -/
def getTransactionStatus (env : StatusEnv) (txHash : String) (chain : String) :
    Except String (TxRow × List TxRow) :=
  match env.transactions.find? (fun r => r.txHash == txHash) with
  | none => .error "Transaction not found"
  | some tx =>
      let status := env.adapterStatus tx.chain txHash
      let newRows :=
        if status ≠ tx.status then
          env.transactions.map fun r =>
            if r.txHash == txHash then statusUpdate status env.now r else r
        else env.transactions
      .ok ({ tx with status := status }, newRows)

end TransferService

/-! ## Wallet directory (`WalletService`)

The repository contains two versions of `WalletService`: the file
`src/services/WalletService.ts` (modelled as `WalletService` below) and a
revised copy bundled alongside `BitcoinAdapter.ts` (modelled as
`WalletServiceV2`).  They differ in exactly the places the claims probe:
V2 checks for an existing wallet in `createWallet` and filters the
max-index query by `network` in `generateNewAddress`; the `services/` file
does neither.  Both are embedded. -/

/-- A row of the `wallets` table. -/
structure WalletRow where
  id : Nat
  userId : String
  encryptedMnemonic : List Byte
  encryptionIv : Nat
  encryptionTag : Nat
deriving DecidableEq, Repr

/-- A row of the `addresses` table as written by `WalletService`. -/
structure WalletAddressRow where
  walletId : Nat
  chain : ChainType
  network : String
  address : String
  derivationPath : String
  publicKey : String
  addressIndex : Nat
deriving DecidableEq, Repr

/-- The `wallets` and `addresses` tables. -/
structure WalletDB where
  wallets : List WalletRow
  addresses : List WalletAddressRow
deriving DecidableEq, Repr

/-- Modelled from the spec: `adapter.generateAddress(mnemonic, index)` is a
deterministic HD derivation (same seed + index always yields the same
address; different seeds yield different addresses).  The bip32/bip39
cryptography lives in external libraries, so the derived address is
modelled as an injective encoding of (chain, seed, index). -/
def deriveAddress (chain : ChainType) (mnemonic : List Byte) (index : Nat) : String :=
  "addr_" ++ chain.key ++ "_" ++ toString (encList mnemonic) ++ "_" ++ toString index

/-- Modelled from the spec: the derivation path reported by the adapter
(per-chain path with the index as the last segment; the hardened tick is
written `h`). -/
def derivationPathFor (chain : ChainType) (index : Nat) : String :=
  match chain with
  | .EVM => "m/44h/60h/0h/0/" ++ toString index
  | .BITCOIN => "m/84h/0h/0h/0/" ++ toString index
  | .SOLANA => "m/44h/501h/" ++ toString index ++ "h/0h"
  | .TON => "m/44h/607h/0h/0/" ++ toString index

/-- Modelled from the spec: the public key reported by the adapter,
deterministic in (chain, seed, index). -/
def derivePublicKey (chain : ChainType) (mnemonic : List Byte) (index : Nat) : String :=
  "pk_" ++ chain.key ++ "_" ++ toString (encList mnemonic) ++ "_" ++ toString index

/-- The per-chain entry of `createWallet`'s `chains` argument: either a
bare chain string or a `{chain, network}` object. -/
inductive ChainConfigEntry
  | str (chain : ChainType)
  | obj (chain : ChainType) (network : Option String)
deriving DecidableEq, Repr

/-- The chain of a `chains` entry. -/
def ChainConfigEntry.chain : ChainConfigEntry → ChainType
  | .str c => c
  | .obj c _ => c

/-- The network `WalletServiceV2.createWallet` extracts from a `chains`
entry (`typeof chainConfig === 'object' ? chainConfig.network : 'ethereum'`). -/
def ChainConfigEntry.network : ChainConfigEntry → Option String
  | .str _ => some "ethereum"
  | .obj _ n => n

/-- `WalletConfig` (src/types/index.ts, with the controller's
chain/network objects). -/
structure WalletConfig where
  userId : String
  chains : List ChainConfigEntry
deriving Repr

/-- The address record returned by `generateAddressForChain`. -/
structure GeneratedAddress where
  chain : ChainType
  network : String
  address : String
  derivationPath : String
  publicKey : String
deriving DecidableEq, Repr

/-- `GeneratedWallet` (src/types/index.ts): the value `createWallet`
returns (`mnemonic` holds the ciphertext). -/
structure GeneratedWallet where
  userId : String
  mnemonic : List Byte
  addresses : List GeneratedAddress
deriving Repr

/-- `WalletService.generateAddressForChain` (identical in both versions):
derive via the adapter, insert the address row with `network || 'mainnet'`
and the given index, return the generated record. -/
def generateAddressForChain (db : WalletDB) (walletId : Nat) (mnemonic : List Byte)
    (chain : ChainType) (index : Nat) (network : Option String) :
    WalletDB × GeneratedAddress :=
  let addr := deriveAddress chain mnemonic index
  let path := derivationPathFor chain index
  let pk := derivePublicKey chain mnemonic index
  ({ db with addresses := db.addresses ++
      [{ walletId := walletId, chain := chain, network := network.getD "mainnet",
         address := addr, derivationPath := path, publicKey := pk,
         addressIndex := index }] },
   { chain := chain, network := network.getD "mainnet", address := addr,
     derivationPath := path, publicKey := pk })

/-- `COALESCE(MAX(address_index), -1) + 1` over the given index list. -/
def nextIndexOf (indices : List Nat) : Nat :=
  match indices.max? with
  | none => 0
  | some m => m + 1

namespace WalletService

/-- `WalletService.createWallet` (src/services/WalletService.ts): always
generates a fresh mnemonic, always inserts a new wallet row (no existence
check), and derives index 0 for each requested chain from the fresh
mnemonic.  Randomness (`bip39.generateMnemonic`, the encryption iv) and
the row id assigned by the database are explicit arguments. -/
def createWallet (masterKey freshIv freshWalletId : Nat) (freshMnemonic : List Byte)
    (db : WalletDB) (config : WalletConfig) : WalletDB × GeneratedWallet :=
  let payload := EncryptionService.encrypt masterKey freshIv freshMnemonic
  let db1 : WalletDB :=
    { db with wallets := db.wallets ++
        [{ id := freshWalletId, userId := config.userId,
           encryptedMnemonic := payload.encrypted, encryptionIv := payload.iv,
           encryptionTag := payload.tag }] }
  let step := fun (acc : WalletDB × List GeneratedAddress) (cfg : ChainConfigEntry) =>
    let r := generateAddressForChain acc.1 freshWalletId freshMnemonic cfg.chain 0 none
    (r.1, acc.2 ++ [r.2])
  let out := config.chains.foldl step (db1, [])
  (out.1, { userId := config.userId, mnemonic := payload.encrypted, addresses := out.2 })

/-- `WalletService.generateNewAddress` (src/services/WalletService.ts):
`SELECT COALESCE(MAX(address_index), -1) + 1 … WHERE wallet_id = $1 AND
chain = $2` — the network is **not** part of the filter. -/
def generateNewAddress (masterKey : Nat) (db : WalletDB) (userId : String)
    (chain : ChainType) (network : Option String) :
    Except String (WalletDB × GeneratedAddress) :=
  match db.wallets.find? (fun w => w.userId == userId) with
  | none => .error "Wallet not found"
  | some wallet =>
      let nextIndex := nextIndexOf
        ((db.addresses.filter fun a =>
            a.walletId == wallet.id && a.chain == chain).map (·.addressIndex))
      match EncryptionService.decrypt masterKey wallet.encryptedMnemonic
          wallet.encryptionIv wallet.encryptionTag with
      | .error e => .error e
      | .ok mnemonic =>
          .ok (generateAddressForChain db wallet.id mnemonic chain nextIndex network)

end WalletService

namespace WalletServiceV2

/-- `WalletService.createWallet` (revised copy bundled with
`BitcoinAdapter.ts`): still generates and encrypts a fresh mnemonic
unconditionally; reuses the existing wallet row when the user already has
one (inserting a new row only otherwise); then derives index 0 for each
requested chain **from the fresh mnemonic**, reading each entry's network
(`'ethereum'` for bare-string entries). -/
def createWallet (masterKey freshIv freshWalletId : Nat) (freshMnemonic : List Byte)
    (db : WalletDB) (config : WalletConfig) : WalletDB × GeneratedWallet :=
  let payload := EncryptionService.encrypt masterKey freshIv freshMnemonic
  let idAndDb : Nat × WalletDB :=
    match db.wallets.find? (fun w => w.userId == config.userId) with
    | some w => (w.id, db)
    | none =>
        (freshWalletId,
         { db with wallets := db.wallets ++
             [{ id := freshWalletId, userId := config.userId,
                encryptedMnemonic := payload.encrypted, encryptionIv := payload.iv,
                encryptionTag := payload.tag }] })
  let step := fun (acc : WalletDB × List GeneratedAddress) (cfg : ChainConfigEntry) =>
    let r := generateAddressForChain acc.1 idAndDb.1 freshMnemonic cfg.chain 0 cfg.network
    (r.1, acc.2 ++ [r.2])
  let out := config.chains.foldl step (idAndDb.2, [])
  (out.1, { userId := config.userId, mnemonic := payload.encrypted, addresses := out.2 })

/-- `WalletService.generateNewAddress` (revised copy): the max-index query
filters by `wallet_id AND chain AND network` (`network || 'mainnet'`). -/
def generateNewAddress (masterKey : Nat) (db : WalletDB) (userId : String)
    (chain : ChainType) (network : Option String) :
    Except String (WalletDB × GeneratedAddress) :=
  match db.wallets.find? (fun w => w.userId == userId) with
  | none => .error "Wallet not found"
  | some wallet =>
      let nextIndex := nextIndexOf
        ((db.addresses.filter fun a =>
            a.walletId == wallet.id && a.chain == chain
              && a.network == network.getD "mainnet").map (·.addressIndex))
      match EncryptionService.decrypt masterKey wallet.encryptedMnemonic
          wallet.encryptionIv wallet.encryptionTag with
      | .error e => .error e
      | .ok mnemonic =>
          .ok (generateAddressForChain db wallet.id mnemonic chain nextIndex network)

end WalletServiceV2

/-! ## Adapter registry (src/chains/index.ts, `ChainAdapterFactory`) -/

/-- The constructed adapter instances, carrying their constructor
arguments (`new EVMAdapter(rpcUrl, chainId)`,
`new BitcoinAdapter(network, apiUrl)` — whose constructor resolves
`apiUrl || 'https://blockstream.info/api'` —, `new SolanaAdapter(rpcUrl)`). -/
inductive AdapterInstance
  | evm (rpcUrl : String) (chainId : Nat)
  | bitcoin (network : String) (apiUrl : String)
  | solana (rpcUrl : String)
deriving DecidableEq, Repr

/-- The RPC endpoints from `config.rpc` (src/config/environment.ts). -/
structure RpcConfig where
  ethereum : String
  bsc : String
  polygon : String
  bitcoin : String
  solana : String
deriving DecidableEq, Repr

/-- The composite map key: `` `${chain}_${network}` `` when a network is
given, the bare chain string otherwise. -/
def adapterKey (chain : ChainType) (network : Option String) : String :=
  match network with
  | some n => chain.key ++ "_" ++ n
  | none => chain.key

/-- The factory's `Map<string, IChainAdapter>`, newest entry first. -/
abbrev Registry := List (String × AdapterInstance)

/-- `Map.set`. -/
def registrySet (st : Registry) (k : String) (v : AdapterInstance) : Registry :=
  (k, v) :: st

/-- The `BitcoinAdapter` constructor's `apiUrl || default` (an empty
configured URL is falsy in JavaScript). -/
def bitcoinApiUrl (cfg : RpcConfig) : String :=
  if cfg.bitcoin = "" then "https://blockstream.info/api" else cfg.bitcoin

namespace ChainAdapterFactory

/-- `ChainAdapterFactory.getAdapter`: look the key up; on a miss run the
lazy-initialization `switch` (EVM only for the networks `ethereum`, `bsc`,
`polygon`; Bitcoin always constructed for `'mainnet'` regardless of the
requested network; Solana always; TON never), then look up again and throw
if still absent.  Returns the adapter together with the updated registry.
`lazyInit` is the miss branch (the body of `if (!this.adapters.has(key))`). -/
def lazyInit (cfg : RpcConfig) (st : Registry) (chain : ChainType)
    (network : Option String) (key : String) : Registry :=
  if (st.lookup key).isSome then st
  else
    match chain with
    | .EVM =>
        if network = some "ethereum" then registrySet st key (.evm cfg.ethereum 1)
        else if network = some "bsc" then registrySet st key (.evm cfg.bsc 56)
        else if network = some "polygon" then registrySet st key (.evm cfg.polygon 137)
        else st
    | .BITCOIN => registrySet st key (.bitcoin "mainnet" (bitcoinApiUrl cfg))
    | .SOLANA => registrySet st key (.solana cfg.solana)
    | .TON => st

/-- The final lookup-or-throw of `getAdapter`. -/
def getAdapter (cfg : RpcConfig) (st : Registry) (chain : ChainType)
    (network : Option String) : Except String (AdapterInstance × Registry) :=
  let key := adapterKey chain network
  let st1 := lazyInit cfg st chain network key
  match st1.lookup key with
  | some adapter => .ok (adapter, st1)
  | none => .error ("Adapter not found for " ++ key)

end ChainAdapterFactory

/-! ## Concrete scenarios for witnesses and counterexamples -/

/-- A flush environment whose balance is dust (`0.002`) and whose gas-price
RPC fails, so the fallback fee `0.001` applies (the spec's own example). -/
def dustEnv : FlushEnv where
  addressRows := [{ address := "0xb1", chain := .EVM, network := "ethereum" }]
  getBalance := fun _ _ _ _ => .ok (2 / 1000)
  getGasPrice := fun _ _ => .error "rpc down"
  transfer := fun _ => .ok "txB"

/-- The flush request for `dustEnv`. -/
def dustRequest : FlushRequest where
  userAddresses := ["0xb1"]
  hotWalletAddress := "0xhot"
  chain := .EVM
  token := none

/-- A flush environment with a token balance of 5 and a succeeding
transfer. -/
def tokenSweepEnv : FlushEnv where
  addressRows := [{ address := "0xd1", chain := .EVM, network := "ethereum" }]
  getBalance := fun _ _ _ _ => .ok 5
  getGasPrice := fun _ _ => .error "rpc down"
  transfer := fun _ => .ok "txD"

/-- A token flush request for `tokenSweepEnv`. -/
def tokenSweepRequest : FlushRequest where
  userAddresses := ["0xd1"]
  hotWalletAddress := "0xhot"
  chain := .EVM
  token := some "0xUSDT"

/-- A flush environment whose transfer always fails. -/
def transferFailEnv : FlushEnv where
  addressRows := [{ address := "0xa1", chain := .EVM, network := "ethereum" }]
  getBalance := fun _ _ _ _ => .ok 1
  getGasPrice := fun _ _ => .error "rpc down"
  transfer := fun _ => .error "broadcast failed"

/-- A twelve-address list (for the 5/5/2 chunking example). -/
def twelveAddresses : List String :=
  ["a1", "a2", "a3", "a4", "a5", "a6", "a7", "a8", "a9", "a10", "a11", "a12"]

/-- The plaintext master mnemonic stored for the demo wallet. -/
def demoMnemonic : List Byte := [104, 105]

/-- The process-wide encryption key of the demo scenarios. -/
def demoMasterKey : Nat := 7

/-- The stored ciphertext payload of `demoMnemonic`. -/
def demoPayload : Encrypted := EncryptionService.encrypt demoMasterKey 3 demoMnemonic

/-- The demo address-join row owning `demoMnemonic`. -/
def demoJoinRow : WalletJoinRow where
  address := "0xfrom"
  chain := .EVM
  network := "ethereum"
  addressIndex := 0
  encryptedMnemonic := demoPayload.encrypted
  encryptionIv := demoPayload.iv
  encryptionTag := demoPayload.tag

/-- A transfer environment where every address has balance 0 but the
adapter broadcast succeeds. -/
def zeroBalanceEnv : TransferEnv where
  masterKey := demoMasterKey
  addressJoinRows := [demoJoinRow]
  transactions := []
  adapterTransfer := fun _ _ _ => .ok "0xtxhash"
  adapterBalance := fun _ _ _ _ => .ok 0

/-- A transfer of 5 units out of the zero-balance address. -/
def overdraftRequest : TransferRequest where
  fromAddress := "0xfrom"
  toAddress := "0xto"
  amount := 5
  chain := .EVM
  token := none

/-- A persisted transaction record already in the terminal state
`confirmed`. -/
def confirmedTxRow : TxRow where
  fromAddress := "0xfrom"
  toAddress := "0xto"
  chain := .EVM
  token := none
  amount := 1
  txHash := "0xdead"
  status := .confirmed
  confirmedAt := some 100

/-- A status environment whose adapter reports `pending` for every
transaction (e.g. the explorer has not indexed it / a reorg). -/
def regressEnv : TransferService.StatusEnv where
  transactions := [confirmedTxRow]
  adapterStatus := fun _ _ => .pending
  now := 200

/-- The demo user's stored wallet row (seed `demoMnemonic`). -/
def demoWalletRow : WalletRow where
  id := 1
  userId := "u1"
  encryptedMnemonic := demoPayload.encrypted
  encryptionIv := demoPayload.iv
  encryptionTag := demoPayload.tag

/-- The pre-existing EVM/ethereum address row at index 3. -/
def evmIndex3Row : WalletAddressRow where
  walletId := 1
  chain := .EVM
  network := "ethereum"
  address := "0xe3"
  derivationPath := "m/44h/60h/0h/0/3"
  publicKey := "pk3"
  addressIndex := 3

/-- A wallet database where the demo wallet already has an EVM/ethereum
address at index 3 and no address on any other network. -/
def crossNetworkDB : WalletDB where
  wallets := [demoWalletRow]
  addresses := [evmIndex3Row]

/-- A wallet database containing only the demo wallet. -/
def demoWalletDB : WalletDB where
  wallets := [demoWalletRow]
  addresses := []

/-- The fresh mnemonic generated by a second `createWallet` call. -/
def freshMnemonic2 : List Byte := [110, 111]

/-- A `createWallet` request for the user who already owns
`demoWalletRow`. -/
def existingUserConfig : WalletConfig where
  userId := "u1"
  chains := [.obj .EVM (some "ethereum")]

/-- A concrete RPC configuration for the factory scenarios. -/
def demoRpc : RpcConfig where
  ethereum := "rpc-eth"
  bsc := "rpc-bsc"
  polygon := "rpc-pol"
  bitcoin := "rpc-btc"
  solana := "rpc-sol"

/-! ## Helper lemmas -/

/-! ### Lemmas about the encryption model -/

theorem decFrom_encFrom (key iv : Nat) :
    ∀ (pos : Nat) (text : List Byte),
      decFrom key iv pos (encFrom key iv pos text) = text := by
  intro pos text
  induction text generalizing pos with
  | nil => rfl
  | cons b bs ih =>
      simp [encFrom, decFrom, ih]

theorem encList_injective : Function.Injective encList := by
  intro l₁ l₂ h
  induction l₁ generalizing l₂ with
  | nil =>
      cases l₂ with
      | nil => rfl
      | cons b bs => simp [encList] at h
  | cons b bs ih =>
      cases l₂ with
      | nil => simp [encList] at h
      | cons c cs =>
          simp only [encList, Nat.add_right_cancel_iff] at h
          have hp := Nat.pair_eq_pair.mp h
          have hb : b = c := Fin.val_injective hp.1
          exact hb ▸ congrArg (List.cons b) (ih hp.2)

theorem macTag_inj_ciphertext (key iv : Nat) {c₁ c₂ : List Byte}
    (h : macTag key iv c₁ = macTag key iv c₂) : c₁ = c₂ := by
  unfold macTag at h
  have h₂ := (Nat.pair_eq_pair.mp h).2
  exact encList_injective (Nat.pair_eq_pair.mp h₂).2

/-! ### Lemmas about chunking -/

theorem chunksOf_flatten (n : Nat) (l : List α) :
    (chunksOf n l).flatten = l := by
  induction l using chunksOf.induct n with
  | case1 => simp [chunksOf]
  | case2 a as h0 => simp [chunksOf, h0]
  | case3 a as h0 ih =>
      rw [chunksOf]
      simp only [dif_neg h0, List.flatten_cons, ih, List.take_append_drop]

theorem chunksOf_length_le (n : Nat) (l : List α) (c : List α)
    (hc : c ∈ chunksOf n l) (hn : n ≠ 0) : c.length ≤ n := by
  induction l using chunksOf.induct n with
  | case1 => simp [chunksOf] at hc
  | case2 a as h0 => exact absurd h0 hn
  | case3 a as h0 ih =>
      rw [chunksOf] at hc
      simp only [dif_neg h0, List.mem_cons] at hc
      rcases hc with rfl | hc
      · simpa using List.length_take_le n (a :: as)
      · exact ih hc

theorem chunksOf_map_length (n : Nat) (l : List α) :
    (chunksOf n l).map List.length = chunkLens n l.length := by
  induction l using chunksOf.induct n with
  | case1 => simp [chunksOf, chunkLens]
  | case2 a as h0 =>
      rw [chunksOf, chunkLens]
      simp [h0]
  | case3 a as h0 ih =>
      rw [chunksOf, chunkLens]
      simp only [dif_neg h0, if_neg h0, List.length_cons, List.map_cons,
        List.length_take, ih, List.length_drop]
      simp [Nat.min_comm]

theorem flushToHotWallet_fst (env : FlushEnv) (request : FlushRequest) :
    (flushToHotWallet env request).1 =
      request.userAddresses.filterMap
        (fun a => (processSingleAddressFlush env a request).1) := by
  unfold flushToHotWallet
  simp only [List.map_map, Function.comp_def, List.filterMap_map, ← List.filterMap_flatten,
    chunksOf_flatten]

/-! ## Claim C9: encryption round-trip and fail-closed decryption -/

/-- C9: for every key, iv and seed, `decrypt(encrypt(seed))` returns the
seed unchanged (round-trip identity); and for every (ciphertext, iv, tag)
triple in which the ciphertext or the authentication tag has been tampered
with, `decrypt` raises an integrity error and never returns a plaintext. -/
theorem C9_encrypt_decrypt_roundtrip_fails_closed :
    (∀ (key iv : Nat) (text : List Byte),
        EncryptionService.decrypt key (EncryptionService.encrypt key iv text).encrypted
          iv (EncryptionService.encrypt key iv text).tag = .ok text)
  ∧ (∀ (key iv : Nat) (text : List Byte) (ct : List Byte),
        ct ≠ (EncryptionService.encrypt key iv text).encrypted →
        EncryptionService.decrypt key ct iv (EncryptionService.encrypt key iv text).tag =
          .error "IntegrityError: authentication tag mismatch")
  ∧ (∀ (key iv : Nat) (text : List Byte) (tag : Nat),
        tag ≠ (EncryptionService.encrypt key iv text).tag →
        EncryptionService.decrypt key (EncryptionService.encrypt key iv text).encrypted
          iv tag = .error "IntegrityError: authentication tag mismatch") := by
  refine ⟨?_, ?_, ?_⟩
  · intro key iv text
    simp [EncryptionService.encrypt, EncryptionService.decrypt, decFrom_encFrom]
  · intro key iv text ct hne
    simp only [EncryptionService.encrypt, EncryptionService.decrypt] at hne ⊢
    rw [if_neg]
    intro h
    exact hne (macTag_inj_ciphertext key iv h).symm
  · intro key iv text tag hne
    simp only [EncryptionService.encrypt, EncryptionService.decrypt] at hne ⊢
    exact if_neg hne

/-- Witness for C9 at key 7, iv 3, seed `[104, 105]`, with a tampered
ciphertext `[0]` and a tampered tag `0`. -/
theorem C9_encrypt_decrypt_roundtrip_fails_closed_witness :
    EncryptionService.decrypt 7 (EncryptionService.encrypt 7 3 [104, 105]).encrypted 3
        (EncryptionService.encrypt 7 3 [104, 105]).tag = .ok [104, 105]
  ∧ EncryptionService.decrypt 7 [0] 3 (EncryptionService.encrypt 7 3 [104, 105]).tag =
      .error "IntegrityError: authentication tag mismatch"
  ∧ EncryptionService.decrypt 7 (EncryptionService.encrypt 7 3 [104, 105]).encrypted 3 0 =
      .error "IntegrityError: authentication tag mismatch" :=
  ⟨C9_encrypt_decrypt_roundtrip_fails_closed.1 7 3 [104, 105],
   C9_encrypt_decrypt_roundtrip_fails_closed.2.1 7 3 [104, 105] [0] (by decide),
   C9_encrypt_decrypt_roundtrip_fails_closed.2.2 7 3 [104, 105] 0 (by decide)⟩

/-! ## Claim C10: silent skip of addresses unknown to the database -/

/-- C10: for every address in a flush request that has no matching record
in the addresses table (matched case-insensitively),
`processSingleAddressFlush` treats it as a silent skip: the effect trace is
empty (no balance query or transfer is attempted), no error is raised (the
call returns normally), and the address contributes no identifier. -/
theorem C10_unknown_address_silently_skipped
    (env : FlushEnv) (a : String) (request : FlushRequest)
    (h : ∀ row ∈ env.addressRows, lowerStr row.address ≠ lowerStr a) :
    processSingleAddressFlush env a request = (none, []) := by
  have hfind : findAddressRow env.addressRows a = none := by
    apply List.find?_eq_none.mpr
    intro row hrow
    simpa using h row hrow
  simp [processSingleAddressFlush, hfind]

/-- Witness for C10: the address `0xZZ` matches no row of `dustEnv`. -/
theorem C10_unknown_address_silently_skipped_witness :
    processSingleAddressFlush dustEnv "0xZZ" dustRequest = (none, []) :=
  C10_unknown_address_silently_skipped dustEnv "0xZZ" dustRequest (by decide)

/-! ## Claim C2: the 2× fee sweep threshold -/

/-- C2: for every address evaluated during a sweep, if the fetched balance
is at most 2 × the estimated fee, the address is skipped: the result is
`none` (no identifier), the trace records the balance and gas-price queries
but no transfer attempt, and no error is raised. -/
theorem C2_sweep_skips_at_or_below_threshold
    (env : FlushEnv) (a : String) (request : FlushRequest) (row : AddressRow)
    (balance : ℚ)
    (hrow : findAddressRow env.addressRows a = some row)
    (hbal : env.getBalance row.chain row.network a request.token = .ok balance)
    (hth : balance ≤ 2 * getDynamicGasFee env row.chain row.network request.token) :
    processSingleAddressFlush env a request =
      (none, [.balanceQuery a request.token, .gasPriceQuery]) := by
  simp only [processSingleAddressFlush, hrow, hbal]
  rw [if_pos (by linarith)]

/-- Witness for C2 at the spec's own example: balance `0.002`, estimated
fee `0.001` (fallback), threshold `0.002` — skipped. -/
theorem C2_sweep_skips_at_or_below_threshold_witness :
    processSingleAddressFlush dustEnv "0xb1" dustRequest =
      (none, [.balanceQuery "0xb1" none, .gasPriceQuery]) := by
  have h := C2_sweep_skips_at_or_below_threshold dustEnv "0xb1" dustRequest
    ⟨"0xb1", .EVM, "ethereum"⟩ (2 / 1000) (by decide) rfl
    (by norm_num [getDynamicGasFee, dustEnv])
  simpa [dustRequest] using h

/-! ## Claim C3: sweep amount computation -/

/-- C3: for every address swept above the threshold, the transfer is
attempted with amount = balance − estimated fee when no token is specified
(native sweep) and with the full fetched balance when a token is specified;
the overall outcome is exactly the transfer's outcome. -/
theorem C3_sweep_amount_native_minus_fee_token_full
    (env : FlushEnv) (a : String) (request : FlushRequest) (row : AddressRow)
    (balance : ℚ)
    (hrow : findAddressRow env.addressRows a = some row)
    (hbal : env.getBalance row.chain row.network a request.token = .ok balance)
    (hth : 2 * getDynamicGasFee env row.chain row.network request.token < balance) :
    processSingleAddressFlush env a request =
      ((env.transfer
          { fromAddress := a, toAddress := request.hotWalletAddress,
            amount := if request.token.isNone
              then balance - getDynamicGasFee env row.chain row.network request.token
              else balance,
            chain := row.chain, token := request.token }).toOption,
       [.balanceQuery a request.token, .gasPriceQuery,
        .transferAttempt
          { fromAddress := a, toAddress := request.hotWalletAddress,
            amount := if request.token.isNone
              then balance - getDynamicGasFee env row.chain row.network request.token
              else balance,
            chain := row.chain, token := request.token }]) := by
  simp only [processSingleAddressFlush, hrow, hbal]
  rw [if_neg (by linarith)]
  cases htr : env.transfer
      { fromAddress := a, toAddress := request.hotWalletAddress,
        amount := if request.token.isNone
          then balance - getDynamicGasFee env row.chain row.network request.token
          else balance,
        chain := row.chain, token := request.token } with
  | ok txHash => simp [htr, Except.toOption]
  | error e => simp [htr, Except.toOption]

/-- Witness for C3: a native sweep of balance 1 with fee `0.001` transfers
exactly `0.999`, and a token sweep of balance 5 transfers the full 5. -/
theorem C3_sweep_amount_native_minus_fee_token_full_witness :
    processSingleAddressFlush feeFailEnv "0xa1" feeFailRequest =
      (some "tx1",
       [.balanceQuery "0xa1" none, .gasPriceQuery,
        .transferAttempt
          { fromAddress := "0xa1", toAddress := "0xhot", amount := 999 / 1000,
            chain := .EVM, token := none }])
  ∧ processSingleAddressFlush tokenSweepEnv "0xd1" tokenSweepRequest =
      (some "txD",
       [.balanceQuery "0xd1" (some "0xUSDT"), .gasPriceQuery,
        .transferAttempt
          { fromAddress := "0xd1", toAddress := "0xhot", amount := 5,
            chain := .EVM, token := some "0xUSDT" }]) := by
  constructor
  · have h := C3_sweep_amount_native_minus_fee_token_full feeFailEnv "0xa1" feeFailRequest
      ⟨"0xa1", .EVM, "ethereum"⟩ 1 (by decide) rfl
      (by norm_num [getDynamicGasFee, feeFailEnv, feeFailRequest])
    rw [h]
    norm_num [getDynamicGasFee, feeFailEnv, feeFailRequest, Except.toOption]
  · have h := C3_sweep_amount_native_minus_fee_token_full tokenSweepEnv "0xd1" tokenSweepRequest
      ⟨"0xd1", .EVM, "ethereum"⟩ 5 (by decide) rfl
      (by norm_num [getDynamicGasFee, tokenSweepEnv, tokenSweepRequest])
    rw [h]
    norm_num [getDynamicGasFee, tokenSweepEnv, tokenSweepRequest, Except.toOption]

/-! ## Claim C1: chunked, failure-isolated, order-preserving batching -/

/-- C1 counterexample: an error raised during fee estimation does *not*
make the address contribute nothing.  With the gas-price RPC failing,
balance 1 and a succeeding transfer, the flush result still contains the
transfer identifier (the fee failure is caught and replaced by the
fallback fee instead of discarding the address). -/
theorem C1_fee_failure_address_still_contributes :
    feeFailEnv.getGasPrice .EVM "ethereum" = .error "rpc down"
  ∧ (flushToHotWallet feeFailEnv feeFailRequest).1 = ["tx1"] := by
  refine ⟨rfl, ?_⟩
  rw [flushToHotWallet_fst]
  norm_num [feeFailRequest, feeFailEnv, processSingleAddressFlush, findAddressRow,
    lowerStr, getDynamicGasFee, List.filterMap_cons, List.filterMap_nil]

set_option maxRecDepth 4000 in
/-- C1 (amended): `flushToHotWallet` processes the list in consecutive
chunks of at most 5 addresses (a list of 12 yields chunks of 5, 5, 2); an
error raised while looking up, fetching the balance of, or transferring
from one address is caught and that address contributes nothing to the
result, never aborting the batch; an error raised during fee estimation is
also caught but is replaced by the fallback fee `0.001`, after which the
address may still be swept; and the returned list contains exactly the
transaction identifiers of the addresses whose transfer succeeded, in
input order. -/
theorem C1_flush_chunking_isolation_order :
    (∀ (l : List String), (chunksOf CONCURRENCY_LIMIT l).flatten = l
      ∧ ∀ c ∈ chunksOf CONCURRENCY_LIMIT l, c.length ≤ 5)
  ∧ (∀ (l : List String), l.length = 12 →
      (chunksOf CONCURRENCY_LIMIT l).map List.length = [5, 5, 2])
  ∧ (∀ (env : FlushEnv) (request : FlushRequest),
      (flushToHotWallet env request).1 =
        request.userAddresses.filterMap
          (fun a => (processSingleAddressFlush env a request).1))
  ∧ (∀ (env : FlushEnv) (request : FlushRequest) (a : String) (pre post : List String),
      request.userAddresses = pre ++ a :: post →
      (processSingleAddressFlush env a request).1 = none →
      (flushToHotWallet env request).1 =
        (pre ++ post).filterMap (fun x => (processSingleAddressFlush env x request).1))
  ∧ (∀ (env : FlushEnv) (chain : ChainType) (network : String)
        (token : Option String) (e : String),
      env.getGasPrice chain network = .error e →
      getDynamicGasFee env chain network token = 1 / 1000) := by
  refine ⟨?_, ?_, flushToHotWallet_fst, ?_, ?_⟩
  · intro l
    refine ⟨chunksOf_flatten _ l, fun c hc => ?_⟩
    exact chunksOf_length_le CONCURRENCY_LIMIT l c hc (by norm_num [CONCURRENCY_LIMIT])
  · intro l hl
    rw [chunksOf_map_length, hl]
    show chunkLens 5 12 = [5, 5, 2]
    rw [chunkLens, chunkLens, chunkLens, chunkLens]
    norm_num
  · intro env request a pre post hsplit hnone
    rw [flushToHotWallet_fst, hsplit]
    simp [List.filterMap_append, List.filterMap_cons, hnone]
  · intro env chain network token e he
    simp [getDynamicGasFee, he]

set_option maxRecDepth 4000 in
/-- Witness for C1 at a concrete 12-address list, the failing-fee
environment and a failing-transfer environment. -/
theorem C1_flush_chunking_isolation_order_witness :
    (chunksOf CONCURRENCY_LIMIT twelveAddresses).map List.length = [5, 5, 2]
  ∧ getDynamicGasFee feeFailEnv .EVM "ethereum" none = 1 / 1000
  ∧ (flushToHotWallet transferFailEnv feeFailRequest).1 = [] := by
  refine ⟨C1_flush_chunking_isolation_order.2.1 twelveAddresses (by decide),
    C1_flush_chunking_isolation_order.2.2.2.2 feeFailEnv .EVM "ethereum" none "rpc down" rfl,
    ?_⟩
  have h := C1_flush_chunking_isolation_order.2.2.2.1 transferFailEnv feeFailRequest
    "0xa1" [] [] rfl
    (by norm_num [feeFailRequest, transferFailEnv, processSingleAddressFlush,
      findAddressRow, lowerStr, getDynamicGasFee])
  simpa using h

/-! ## Claim C4: the transfer engine's (missing) balance pre-flight -/

/-- C4 counterexample: the source address has balance 0 and the requested
amount is 5, yet `TransferService.transfer` succeeds, broadcasts through
the adapter and persists a `pending` record — it raises no
`InsufficientFundsError` and performs no balance check at all. -/
theorem C4_transfer_succeeds_despite_zero_balance :
    zeroBalanceEnv.adapterBalance .EVM "ethereum" "0xfrom" none = .ok 0
  ∧ (0 : ℚ) < overdraftRequest.amount
  ∧ TransferService.transfer zeroBalanceEnv overdraftRequest =
      .ok ("0xtxhash", [pendingRecord overdraftRequest "0xtxhash"]) := by
  refine ⟨rfl, by norm_num [overdraftRequest], ?_⟩
  simp only [TransferService.transfer, zeroBalanceEnv, demoJoinRow, demoPayload]
  norm_num [EncryptionService.decrypt, EncryptionService.encrypt, decFrom_encFrom,
    overdraftRequest, beq_self_eq_true]

/-- C4 (amended): `TransferService.transfer` performs no balance
pre-flight: its outcome is independent of the balance oracle; an unknown
source address fails with `Address not found`; and whenever the address
lookup, the seed decryption and the adapter broadcast succeed, it returns
the transaction identifier and appends a `pending` record, regardless of
the current balance (insufficient funds can only surface as an
adapter/broadcast error). -/
theorem C4_transfer_no_balance_precheck :
    (∀ (env : TransferEnv) (request : TransferRequest)
        (bal : ChainType → String → String → Option String → Except String ℚ),
      TransferService.transfer { env with adapterBalance := bal } request =
        TransferService.transfer env request)
  ∧ (∀ (env : TransferEnv) (request : TransferRequest),
      env.addressJoinRows.find?
          (fun r => r.address == request.fromAddress && r.chain == request.chain) = none →
      TransferService.transfer env request = .error "Address not found")
  ∧ (∀ (env : TransferEnv) (request : TransferRequest) (row : WalletJoinRow)
        (mnemonic : List Byte) (txHash : String),
      env.addressJoinRows.find?
          (fun r => r.address == request.fromAddress && r.chain == request.chain) = some row →
      EncryptionService.decrypt env.masterKey row.encryptedMnemonic
          row.encryptionIv row.encryptionTag = .ok mnemonic →
      env.adapterTransfer request.chain row.network
          { fromMnemonic := mnemonic, fromIndex := row.addressIndex,
            toAddress := request.toAddress, amount := request.amount,
            token := request.token } = .ok txHash →
      TransferService.transfer env request =
        .ok (txHash, env.transactions ++ [pendingRecord request txHash])) := by
  refine ⟨fun env request bal => rfl, ?_, ?_⟩
  · intro env request hfind
    simp [TransferService.transfer, hfind]
  · intro env request row mnemonic txHash hfind hdec htr
    simp [TransferService.transfer, hfind, hdec, htr]

/-- Witness for C4: the amended behavior at the zero-balance environment. -/
theorem C4_transfer_no_balance_precheck_witness :
    TransferService.transfer
        { zeroBalanceEnv with adapterBalance := fun _ _ _ _ => .ok 1000000 }
        overdraftRequest =
      TransferService.transfer zeroBalanceEnv overdraftRequest
  ∧ TransferService.transfer zeroBalanceEnv
      { overdraftRequest with fromAddress := "0xnobody" } = .error "Address not found"
  ∧ TransferService.transfer zeroBalanceEnv overdraftRequest =
      .ok ("0xtxhash", [pendingRecord overdraftRequest "0xtxhash"]) := by
  refine ⟨C4_transfer_no_balance_precheck.1 zeroBalanceEnv overdraftRequest _,
    C4_transfer_no_balance_precheck.2.1 zeroBalanceEnv _ (by decide), ?_⟩
  have h := C4_transfer_no_balance_precheck.2.2 zeroBalanceEnv overdraftRequest
    demoJoinRow demoMnemonic "0xtxhash" (by decide)
    (by simp [demoJoinRow, demoPayload, zeroBalanceEnv, EncryptionService.decrypt,
      EncryptionService.encrypt, decFrom_encFrom]) rfl
  simpa [zeroBalanceEnv] using h

/-! ## Claim C5: status reconciliation and terminal states -/

theorem find?_map_conditional_update (l : List TxRow) (txHash : String) (tx : TxRow)
    (f : TxRow → TxRow) (hpres : ∀ r, (f r).txHash = r.txHash)
    (h : l.find? (fun r => r.txHash == txHash) = some tx) :
    (l.map fun r => if r.txHash == txHash then f r else r).find?
      (fun r => r.txHash == txHash) = some (f tx) := by
  induction l with
  | nil => simp at h
  | cons r l ih =>
      by_cases hc : r.txHash = txHash
      · rw [List.find?_cons_of_pos _ (by simpa using hc)] at h
        have htx : r = tx := by simpa using h
        subst htx
        simp only [List.map_cons, if_pos (show (r.txHash == txHash) = true by simpa using hc)]
        rw [List.find?_cons_of_pos _ (by simpa using (hpres r).trans hc)]
      · rw [List.find?_cons_of_neg _ (by simpa using hc)] at h
        simp only [List.map_cons, if_neg (show ¬(r.txHash == txHash) = true by simpa using hc)]
        rw [List.find?_cons_of_neg _ (by simpa using hc)]
        exact ih h

/-- C5 counterexample: a record stored as `confirmed` is regressed.  With
the adapter reporting `pending` for the hash, `getTransactionStatus`
overwrites the stored `confirmed` status with `pending` and clears
`confirmed_at`, and returns the view with status `pending`. -/
theorem C5_confirmed_record_regressed_to_pending :
    confirmedTxRow.status = .confirmed
  ∧ TransferService.getTransactionStatus regressEnv "0xdead" "EVM" =
      .ok ({ confirmedTxRow with status := .pending },
           [TransferService.statusUpdate .pending 200 confirmedTxRow])
  ∧ (TransferService.statusUpdate .pending 200 confirmedTxRow).status = .pending
  ∧ (TransferService.statusUpdate .pending 200 confirmedTxRow).confirmedAt = none := by
  refine ⟨rfl, ?_, rfl, rfl⟩
  simp [TransferService.getTransactionStatus, regressEnv, confirmedTxRow]

/-- C5 (amended): `getTransactionStatus` returns the record carrying the
adapter-reported status and, whenever that differs from the stored status,
overwrites the stored status with the adapter's report — including
regressing a stored `confirmed`/`failed` back to `pending` — setting
`confirmed_at` when the new status is `confirmed` and clearing it
otherwise; when the reported status equals the stored one the table is
unchanged. -/
theorem C5_status_overwritten_by_adapter_report
    (env : TransferService.StatusEnv) (txHash chain : String) (tx : TxRow)
    (hfind : env.transactions.find? (fun r => r.txHash == txHash) = some tx) :
    ∃ rows, TransferService.getTransactionStatus env txHash chain =
        .ok ({ tx with status := env.adapterStatus tx.chain txHash }, rows)
      ∧ (env.adapterStatus tx.chain txHash ≠ tx.status →
          rows.find? (fun r => r.txHash == txHash) =
            some (TransferService.statusUpdate (env.adapterStatus tx.chain txHash) env.now tx))
      ∧ (env.adapterStatus tx.chain txHash = tx.status → rows = env.transactions) := by
  by_cases hst : env.adapterStatus tx.chain txHash = tx.status
  · refine ⟨env.transactions, ?_, fun hne => absurd hst hne, fun _ => rfl⟩
    simp [TransferService.getTransactionStatus, hfind, hst]
  · refine ⟨env.transactions.map fun r =>
        if r.txHash == txHash
        then TransferService.statusUpdate (env.adapterStatus tx.chain txHash) env.now r
        else r, ?_, fun _ => ?_, fun heq => absurd heq hst⟩
    · simp [TransferService.getTransactionStatus, hfind, hst]
    · exact find?_map_conditional_update env.transactions txHash tx _ (fun r => rfl) hfind

/-- Witness for C5 at the concrete regression scenario: the stored row is
`confirmed`, the adapter reports `pending`. -/
theorem C5_status_overwritten_by_adapter_report_witness :
    ∃ rows, TransferService.getTransactionStatus regressEnv "0xdead" "EVM" =
        .ok ({ confirmedTxRow with
                status := regressEnv.adapterStatus confirmedTxRow.chain "0xdead" }, rows)
      ∧ (regressEnv.adapterStatus confirmedTxRow.chain "0xdead" ≠ confirmedTxRow.status →
          rows.find? (fun r => r.txHash == "0xdead") =
            some (TransferService.statusUpdate
              (regressEnv.adapterStatus confirmedTxRow.chain "0xdead") regressEnv.now
              confirmedTxRow))
      ∧ (regressEnv.adapterStatus confirmedTxRow.chain "0xdead" = confirmedTxRow.status →
          rows = regressEnv.transactions) :=
  C5_status_overwritten_by_adapter_report regressEnv "0xdead" "EVM" confirmedTxRow rfl

/-! ## Claim C6: derivation-index allocation -/

theorem nextIndexOf_range (k : Nat) : nextIndexOf (List.range k) = k := by
  cases k with
  | zero => simp [nextIndexOf]
  | succ k =>
      have hmax : (List.range (k + 1)).max? = some k := by
        rw [List.max?_eq_some_iff]
        · exact ⟨List.mem_range.mpr (Nat.lt_succ_self k),
            fun b hb => Nat.lt_succ_iff.mp (List.mem_range.mp hb)⟩
        · exact fun a => Nat.le_refl a
        · exact fun a b => max_choice a b
        · exact fun a b c => Nat.max_le
      simp [nextIndexOf, hmax]

/-- C6 counterexample: in `src/services/WalletService.ts` the max-index
query filters by wallet and chain only, not by network.  With an existing
EVM/ethereum address at index 3 and no EVM/bsc address at all,
`generateNewAddress` for (EVM, bsc) allocates index 4 instead of the 0 the
claim requires, so addresses on a different network of the same chain do
influence the allocated index. -/
theorem C6_services_variant_counts_other_networks :
    WalletService.generateNewAddress demoMasterKey crossNetworkDB "u1" .EVM (some "bsc") =
      .ok (generateAddressForChain crossNetworkDB 1 demoMnemonic .EVM 4 (some "bsc"))
  ∧ ((crossNetworkDB.addresses.filter fun a =>
        a.walletId == 1 && a.chain == ChainType.EVM && a.network == "bsc").map
      (·.addressIndex)) = []
  ∧ nextIndexOf [] = 0 := by
  refine ⟨?_, by decide, rfl⟩
  simp only [WalletService.generateNewAddress, crossNetworkDB, demoWalletRow, demoPayload,
    evmIndex3Row]
  norm_num [EncryptionService.decrypt, EncryptionService.encrypt, decFrom_encFrom,
    nextIndexOf, List.max?, List.filter_cons, List.find?]

/-- C6 (amended): the revised `WalletService` (bundled with
`BitcoinAdapter.ts`) allocates the next derivation index as the maximum
existing index among the wallet's addresses restricted to the requested
(chain, network) pair plus 1, starting at 0 when none exist, so that
per-(wallet, chain, network) indices form a contiguous sequence from 0 and
other networks of the same chain do not influence the allocation; the
`src/services/WalletService.ts` variant instead takes the maximum over the
wallet's addresses of the requested chain across **all** networks. -/
theorem C6_next_index_allocation :
    (∀ (masterKey : Nat) (db : WalletDB) (userId : String) (chain : ChainType)
        (network : Option String) (wallet : WalletRow) (mnemonic : List Byte),
      db.wallets.find? (fun w => w.userId == userId) = some wallet →
      EncryptionService.decrypt masterKey wallet.encryptedMnemonic wallet.encryptionIv
          wallet.encryptionTag = .ok mnemonic →
      WalletServiceV2.generateNewAddress masterKey db userId chain network =
        .ok (generateAddressForChain db wallet.id mnemonic chain
          (nextIndexOf ((db.addresses.filter fun a =>
              a.walletId == wallet.id && a.chain == chain
                && a.network == network.getD "mainnet").map (·.addressIndex))) network))
  ∧ (∀ (masterKey : Nat) (db : WalletDB) (userId : String) (chain : ChainType)
        (network : Option String) (wallet : WalletRow) (mnemonic : List Byte),
      db.wallets.find? (fun w => w.userId == userId) = some wallet →
      EncryptionService.decrypt masterKey wallet.encryptedMnemonic wallet.encryptionIv
          wallet.encryptionTag = .ok mnemonic →
      WalletService.generateNewAddress masterKey db userId chain network =
        .ok (generateAddressForChain db wallet.id mnemonic chain
          (nextIndexOf ((db.addresses.filter fun a =>
              a.walletId == wallet.id && a.chain == chain).map (·.addressIndex)))
          network))
  ∧ (∀ (rows : List WalletAddressRow) (extra : WalletAddressRow) (wid : Nat)
        (chain : ChainType) (net : String),
      extra.network ≠ net →
      ((rows ++ [extra]).filter fun a =>
          a.walletId == wid && a.chain == chain && a.network == net).map (·.addressIndex) =
        (rows.filter fun a =>
          a.walletId == wid && a.chain == chain && a.network == net).map (·.addressIndex))
  ∧ nextIndexOf [] = 0
  ∧ (∀ k, nextIndexOf (List.range k) = k) := by
  refine ⟨?_, ?_, ?_, rfl, nextIndexOf_range⟩
  · intro masterKey db userId chain network wallet mnemonic hfind hdec
    simp [WalletServiceV2.generateNewAddress, hfind, hdec]
  · intro masterKey db userId chain network wallet mnemonic hfind hdec
    simp [WalletService.generateNewAddress, hfind, hdec]
  · intro rows extra wid chain net hne
    rw [List.filter_append]
    have hp : (extra.walletId == wid && extra.chain == chain
        && extra.network == net) = false := by
      simp [hne]
    simp [List.filter_cons, hp]

/-- Witness for C6: the revised variant allocating over `crossNetworkDB`
for the (EVM, bsc) pair, and contiguity at `List.range 4`. -/
theorem C6_next_index_allocation_witness :
    WalletServiceV2.generateNewAddress demoMasterKey crossNetworkDB "u1" .EVM (some "bsc") =
      .ok (generateAddressForChain crossNetworkDB demoWalletRow.id demoMnemonic .EVM
        (nextIndexOf ((crossNetworkDB.addresses.filter fun a =>
            a.walletId == demoWalletRow.id && a.chain == ChainType.EVM
              && a.network == (some "bsc" : Option String).getD "mainnet").map
          (·.addressIndex))) (some "bsc"))
  ∧ nextIndexOf (List.range 4) = 4 := by
  refine ⟨?_, C6_next_index_allocation.2.2.2.2 4⟩
  exact C6_next_index_allocation.1 demoMasterKey crossNetworkDB "u1" .EVM (some "bsc")
    demoWalletRow demoMnemonic (by decide)
    (by simp [demoWalletRow, demoPayload, EncryptionService.decrypt,
      EncryptionService.encrypt, decFrom_encFrom])

/-! ## Claim C7: createWallet idempotence and seed reuse -/

/-- C7 (code bug): a second `createWallet` call for a user who already has
a wallet reuses the wallet row (no second wallet is inserted), but it
still generates a fresh seed and derives the requested address **from the
fresh seed**, which is never persisted — the stored wallet still decrypts
to the original seed, and the address it would derive at index 0 differs
from the persisted one, so the persisted address's key cannot be
reconstructed from the stored wallet (contradicting the claim and
`TransferService`, which signs with the stored seed). -/
theorem C7_createWallet_derives_from_unpersisted_fresh_seed :
    (WalletServiceV2.createWallet demoMasterKey 4 2 freshMnemonic2 demoWalletDB
        existingUserConfig).1.wallets = [demoWalletRow]
  ∧ (WalletServiceV2.createWallet demoMasterKey 4 2 freshMnemonic2 demoWalletDB
        existingUserConfig).1.addresses =
      [{ walletId := 1, chain := .EVM, network := "ethereum",
         address := deriveAddress .EVM freshMnemonic2 0,
         derivationPath := derivationPathFor .EVM 0,
         publicKey := derivePublicKey .EVM freshMnemonic2 0, addressIndex := 0 }]
  ∧ deriveAddress .EVM freshMnemonic2 0 ≠ deriveAddress .EVM demoMnemonic 0
  ∧ EncryptionService.decrypt demoMasterKey demoWalletRow.encryptedMnemonic
      demoWalletRow.encryptionIv demoWalletRow.encryptionTag = .ok demoMnemonic := by
  refine ⟨by decide, by decide, by decide, ?_⟩
  simp [demoWalletRow, demoPayload, EncryptionService.decrypt,
    EncryptionService.encrypt, decFrom_encFrom]

/-! ## Claim C8: adapter registry lookup and lazy construction -/

theorem getAdapter_ok_lookup (cfg : RpcConfig) (st : Registry) (chain : ChainType)
    (network : Option String) (a : AdapterInstance) (st' : Registry)
    (h : ChainAdapterFactory.getAdapter cfg st chain network = .ok (a, st')) :
    st'.lookup (adapterKey chain network) = some a := by
  simp only [ChainAdapterFactory.getAdapter] at h
  cases hl : (ChainAdapterFactory.lazyInit cfg st chain network (adapterKey chain network)).lookup
      (adapterKey chain network) with
  | none => rw [hl] at h; simp at h
  | some b =>
      rw [hl] at h
      simp only [Except.ok.injEq, Prod.mk.injEq] at h
      obtain ⟨rfl, rfl⟩ := h
      exact hl

/-- C8 counterexample: no adapter configuration exists for
(BITCOIN, testnet), yet `getAdapter` raises no error: the lazy `switch`
constructs — and caches under the `BITCOIN_testnet` key — a
`BitcoinAdapter` built for `mainnet`, an adapter constructed for a
different (chain, network) pair. -/
theorem C8_bitcoin_testnet_served_mainnet_adapter :
    ChainAdapterFactory.getAdapter demoRpc [] .BITCOIN (some "testnet") =
      .ok (.bitcoin "mainnet" "rpc-btc",
           [("BITCOIN_testnet", .bitcoin "mainnet" "rpc-btc")])
  ∧ ("mainnet" : String) ≠ "testnet" := by
  refine ⟨?_, by decide⟩
  rfl

/-- C8 (amended): for (chain, network) pairs for which the lazy `switch`
has no constructor — TON with any network, and EVM with a network other
than ethereum/bsc/polygon (or no network) — and no registration exists,
`getAdapter` throws a hard `Adapter not found` error and never returns
null or a default; every already-registered key is served its cached
instance with the registry unchanged, so repeated calls return the same
instance; but for BITCOIN any uncached requested network lazily constructs
and caches an adapter built for `mainnet`. -/
theorem C8_adapter_lookup_hard_error_and_caching :
    (∀ (cfg : RpcConfig) (st : Registry) (network : Option String),
      st.lookup (adapterKey .TON network) = none →
      ChainAdapterFactory.getAdapter cfg st .TON network =
        .error ("Adapter not found for " ++ adapterKey .TON network))
  ∧ (∀ (cfg : RpcConfig) (st : Registry) (network : Option String),
      st.lookup (adapterKey .EVM network) = none →
      network ∉ [some "ethereum", some "bsc", some "polygon"] →
      ChainAdapterFactory.getAdapter cfg st .EVM network =
        .error ("Adapter not found for " ++ adapterKey .EVM network))
  ∧ (∀ (cfg : RpcConfig) (st : Registry) (chain : ChainType) (network : Option String)
        (a : AdapterInstance),
      st.lookup (adapterKey chain network) = some a →
      ChainAdapterFactory.getAdapter cfg st chain network = .ok (a, st))
  ∧ (∀ (cfg : RpcConfig) (st : Registry) (chain : ChainType) (network : Option String)
        (a : AdapterInstance) (st' : Registry),
      ChainAdapterFactory.getAdapter cfg st chain network = .ok (a, st') →
      ChainAdapterFactory.getAdapter cfg st' chain network = .ok (a, st'))
  ∧ (∀ (cfg : RpcConfig) (st : Registry) (network : Option String),
      st.lookup (adapterKey .BITCOIN network) = none →
      ChainAdapterFactory.getAdapter cfg st .BITCOIN network =
        .ok (.bitcoin "mainnet" (bitcoinApiUrl cfg),
             registrySet st (adapterKey .BITCOIN network)
               (.bitcoin "mainnet" (bitcoinApiUrl cfg)))) := by
  refine ⟨?_, ?_, ?_, ?_, ?_⟩
  · intro cfg st network hmiss
    simp [ChainAdapterFactory.getAdapter, ChainAdapterFactory.lazyInit, hmiss]
  · intro cfg st network hmiss hnet
    have h1 : network ≠ some "ethereum" := fun h => hnet (by simp [h])
    have h2 : network ≠ some "bsc" := fun h => hnet (by simp [h])
    have h3 : network ≠ some "polygon" := fun h => hnet (by simp [h])
    simp [ChainAdapterFactory.getAdapter, ChainAdapterFactory.lazyInit, hmiss, h1, h2, h3]
  · intro cfg st chain network a hhit
    simp [ChainAdapterFactory.getAdapter, ChainAdapterFactory.lazyInit, hhit]
  · intro cfg st chain network a st' h
    have hl := getAdapter_ok_lookup cfg st chain network a st' h
    simp [ChainAdapterFactory.getAdapter, ChainAdapterFactory.lazyInit, hl]
  · intro cfg st network hmiss
    simp [ChainAdapterFactory.getAdapter, ChainAdapterFactory.lazyInit, hmiss, registrySet]

/-- Witness for C8: TON and EVM/sepolia miss hard on an empty registry; a
registered key is served from the cache; a second Bitcoin call returns the
instance cached by the first. -/
theorem C8_adapter_lookup_hard_error_and_caching_witness :
    ChainAdapterFactory.getAdapter demoRpc [] .TON none =
      .error ("Adapter not found for " ++ adapterKey .TON none)
  ∧ ChainAdapterFactory.getAdapter demoRpc [] .EVM (some "sepolia") =
      .error ("Adapter not found for " ++ adapterKey .EVM (some "sepolia"))
  ∧ ChainAdapterFactory.getAdapter demoRpc [("EVM_ethereum", .evm "rpc-eth" 1)]
        .EVM (some "ethereum") =
      .ok (.evm "rpc-eth" 1, [("EVM_ethereum", .evm "rpc-eth" 1)])
  ∧ ChainAdapterFactory.getAdapter demoRpc
        [("BITCOIN_testnet", .bitcoin "mainnet" "rpc-btc")] .BITCOIN (some "testnet") =
      .ok (.bitcoin "mainnet" "rpc-btc",
           [("BITCOIN_testnet", .bitcoin "mainnet" "rpc-btc")]) := by
  refine ⟨C8_adapter_lookup_hard_error_and_caching.1 demoRpc [] none rfl,
    C8_adapter_lookup_hard_error_and_caching.2.1 demoRpc [] (some "sepolia") rfl (by decide),
    C8_adapter_lookup_hard_error_and_caching.2.2.1 demoRpc _ .EVM (some "ethereum") _
      (by decide), ?_⟩
  exact C8_adapter_lookup_hard_error_and_caching.2.2.2.1 demoRpc [] .BITCOIN
    (some "testnet") (.bitcoin "mainnet" "rpc-btc")
    [("BITCOIN_testnet", .bitcoin "mainnet" "rpc-btc")] rfl

end HDWallet
